import Mathlib

/-!
Verification of the collection layer of a document-store adapter
(`src/lib/collection.js`): criteria-to-query translation, result
normalization, index building, and per-operation connection lifecycle.

JavaScript objects are embedded as association lists `List (String × Val)`
over a JSON-like value type `Val`.  Each public operation (`find`,
`insert`, `update`, `destroy`) is embedded as a pure function producing
the ordered trace of its observable events: connection open, driver calls
with their arguments, connection close, callback invocations, and thrown
exceptions.  Driver responses are injected as parameters, since the
driver is an external collaborator (spec §6); theorems that need store
semantics instantiate the responses from an in-memory store model.
-/

/-- A JSON-like value: the shape of JavaScript values flowing through the
collection layer. -/
inductive Val where
  | null
  | bool (b : Bool)
  | num (n : Int)
  | str (s : String)
  | arr (elems : List Val)
  | obj (fields : List (String × Val))
deriving Repr

mutual

def decEqVal : (a b : Val) → Decidable (a = b)
  | .null, .null => isTrue rfl
  | .bool a, .bool b =>
      if h : a = b then isTrue (by rw [h]) else isFalse (fun hh => h (Val.bool.inj hh))
  | .num a, .num b =>
      if h : a = b then isTrue (by rw [h]) else isFalse (fun hh => h (Val.num.inj hh))
  | .str a, .str b =>
      if h : a = b then isTrue (by rw [h]) else isFalse (fun hh => h (Val.str.inj hh))
  | .arr as, .arr bs =>
      match decEqListVal as bs with
      | isTrue h => isTrue (by rw [h])
      | isFalse h => isFalse (fun hh => h (Val.arr.inj hh))
  | .obj as, .obj bs =>
      match decEqFieldsVal as bs with
      | isTrue h => isTrue (by rw [h])
      | isFalse h => isFalse (fun hh => h (Val.obj.inj hh))
  | .null, .bool _ => isFalse (fun h => Val.noConfusion h)
  | .null, .num _ => isFalse (fun h => Val.noConfusion h)
  | .null, .str _ => isFalse (fun h => Val.noConfusion h)
  | .null, .arr _ => isFalse (fun h => Val.noConfusion h)
  | .null, .obj _ => isFalse (fun h => Val.noConfusion h)
  | .bool _, .null => isFalse (fun h => Val.noConfusion h)
  | .bool _, .num _ => isFalse (fun h => Val.noConfusion h)
  | .bool _, .str _ => isFalse (fun h => Val.noConfusion h)
  | .bool _, .arr _ => isFalse (fun h => Val.noConfusion h)
  | .bool _, .obj _ => isFalse (fun h => Val.noConfusion h)
  | .num _, .null => isFalse (fun h => Val.noConfusion h)
  | .num _, .bool _ => isFalse (fun h => Val.noConfusion h)
  | .num _, .str _ => isFalse (fun h => Val.noConfusion h)
  | .num _, .arr _ => isFalse (fun h => Val.noConfusion h)
  | .num _, .obj _ => isFalse (fun h => Val.noConfusion h)
  | .str _, .null => isFalse (fun h => Val.noConfusion h)
  | .str _, .bool _ => isFalse (fun h => Val.noConfusion h)
  | .str _, .num _ => isFalse (fun h => Val.noConfusion h)
  | .str _, .arr _ => isFalse (fun h => Val.noConfusion h)
  | .str _, .obj _ => isFalse (fun h => Val.noConfusion h)
  | .arr _, .null => isFalse (fun h => Val.noConfusion h)
  | .arr _, .bool _ => isFalse (fun h => Val.noConfusion h)
  | .arr _, .num _ => isFalse (fun h => Val.noConfusion h)
  | .arr _, .str _ => isFalse (fun h => Val.noConfusion h)
  | .arr _, .obj _ => isFalse (fun h => Val.noConfusion h)
  | .obj _, .null => isFalse (fun h => Val.noConfusion h)
  | .obj _, .bool _ => isFalse (fun h => Val.noConfusion h)
  | .obj _, .num _ => isFalse (fun h => Val.noConfusion h)
  | .obj _, .str _ => isFalse (fun h => Val.noConfusion h)
  | .obj _, .arr _ => isFalse (fun h => Val.noConfusion h)

def decEqListVal : (a b : List Val) → Decidable (a = b)
  | [], [] => isTrue rfl
  | [], _ :: _ => isFalse (fun h => List.noConfusion h)
  | _ :: _, [] => isFalse (fun h => List.noConfusion h)
  | a :: as, b :: bs =>
      match decEqVal a b, decEqListVal as bs with
      | isTrue h1, isTrue h2 => isTrue (by rw [h1, h2])
      | isFalse h1, _ => isFalse (fun h => h1 (List.cons.inj h).1)
      | _, isFalse h2 => isFalse (fun h => h2 (List.cons.inj h).2)

def decEqFieldsVal : (a b : List (String × Val)) → Decidable (a = b)
  | [], [] => isTrue rfl
  | [], _ :: _ => isFalse (fun h => List.noConfusion h)
  | _ :: _, [] => isFalse (fun h => List.noConfusion h)
  | (k1, v1) :: as, (k2, v2) :: bs =>
      match inferInstanceAs (Decidable (k1 = k2)), decEqVal v1 v2, decEqFieldsVal as bs with
      | isTrue hk, isTrue hv, isTrue ht => isTrue (by rw [hk, hv, ht])
      | isFalse hk, _, _ => isFalse (fun h => hk (congrArg Prod.fst (List.cons.inj h).1))
      | _, isFalse hv, _ => isFalse (fun h => hv (congrArg Prod.snd (List.cons.inj h).1))
      | _, _, isFalse ht => isFalse (fun h => ht (List.cons.inj h).2)

end

instance : DecidableEq Val := decEqVal

/-- A JavaScript object: an association list of string keys to values. -/
abbrev Doc := List (String × Val)

/-- Property read `o[k]`: the first binding of `k`, if any. -/
def alookup {α : Type} (k : String) : List (String × α) → Option α
  | [] => none
  | (k', v) :: rest => if k' = k then some v else alookup k rest

/-- Property write `o[k] = v`: overwrite the existing binding in place
when the key exists, append a new binding at the end otherwise. -/
def setKey {α : Type} (k : String) (v : α) : List (String × α) → List (String × α)
  | [] => [(k, v)]
  | p :: rest => if p.1 = k then (k, v) :: rest else p :: setKey k v rest

/-- Property removal `delete o[k]`. -/
def eraseKey {α : Type} (k : String) : List (String × α) → List (String × α)
  | [] => []
  | p :: rest => if p.1 = k then eraseKey k rest else p :: eraseKey k rest

/-- JavaScript truthiness of a value. -/
def truthy : Val → Bool
  | .null => false
  | .bool b => b
  | .num n => n != 0
  | .str s => !s.isEmpty
  | .arr _ => true
  | .obj _ => true

/-- The key `k` exists in `d` and its value is truthy (the shape of a
JavaScript `if (o.k)` guard). -/
def truthyAt (k : String) (d : Doc) : Bool :=
  match alookup k d with
  | some v => truthy v
  | none => false

/-- A field specification of the schema: the semantic flags the collection
layer inspects (spec §3); an absent flag is embedded as `false`. -/
structure FieldSpec where
  unique : Bool := false
  index : Bool := false
  autoIncrement : Bool := false
deriving DecidableEq, Repr

/-- A schema definition: an ordered mapping from field names to field
specifications (spec §3). -/
abbrev Schema := List (String × FieldSpec)

/-- Modelled from the spec: the Document normalizer (`lib/document.js`,
which is not under `src/`) exposes `.values` after schema shaping (§4.2,
§6); inbound values are processed independently and order-preserving, and
identifier fields are not removed by it (the collection layer strips them
itself on lines 237-238, which presupposes they survive the shaping).  On
an already store-shaped value map the shaping is the identity. -/
def documentValues (values : Doc) (_schema : Schema) : Doc := values

/-- Modelled from the spec: `utils.rewriteIds` (`lib/utils.js`, which is
not under `src/`) rewrites the store-native primary identifier field
`_id` of a record to the ORM's generic `id` (§4.2 and glossary); a record
without `_id` is returned unchanged. -/
def rewriteDocId (d : Doc) : Doc :=
  match alookup "_id" d with
  | some v => eraseKey "_id" (setKey "id" v d)
  | none => d

/-- Modelled from the spec: `utils.rewriteIds` applied to a list of
records (§4.2: the rewrite covers arrays of records). -/
def rewriteIds (docs : List Doc) : List Doc := docs.map rewriteDocId

/-- Modelled from the spec: the Query translator (`lib/query.js`, which is
not under `src/`) throws synchronously on malformed criteria and
otherwise exposes `.criteria` (with its `where` sub-object), `.aggregate`
and `.aggregateGroup` (§6).  Operations receive the outcome of
`new Query(criteria)` as an `Except`, whose error case is the synchronous
throw caught by the collection layer. -/
structure Query where
  criteria : Doc
  aggregate : Bool
  aggregateGroup : Doc
deriving DecidableEq, Repr

/-- Lines 150 and 171: `query.criteria.where || {}` — the `where`
sub-object, defaulting to the empty object when absent or falsy. -/
def whereOrEmpty (q : Query) : Val :=
  match alookup "where" q.criteria with
  | some v => if truthy v then v else .obj []
  | none => .obj []

/-- Lines 246 and 301: `query.criteria.where` passed verbatim to the
driver; an absent key is JavaScript `undefined`, embedded as `Val.null`
(the driver treats both as a match-all filter). -/
def whereRaw (q : Query) : Val :=
  match alookup "where" q.criteria with
  | some v => v
  | none => .null

/-- Lines 237-238: `if(values.id) delete values.id;
if(values._id) delete values._id` — each identifier field is deleted only
when present and truthy. -/
def stripIds (values : Doc) : Doc :=
  let values1 := if truthyAt "id" values then eraseKey "id" values else values
  if truthyAt "_id" values1 then eraseKey "_id" values1 else values1

/-- Sequential property assignment: `for (k in src) dst[k] = src[k]`. -/
def assignAll (src : List (String × Val)) (dst : Doc) : Doc :=
  src.foldl (fun acc p => setKey p.1 p.2 acc) dst

/-- Lines 158-164: copy every key of `result._id` to the top level of the
result, then delete `result._id`.  A JavaScript `for..in` over a number,
boolean or null enumerates nothing, so for those only the deletion
remains; grouped identifiers are objects per spec §4.1, so the
character-index enumeration of a string-valued `_id` is not modelled. -/
def flattenGroupedDoc (d : Doc) : Doc :=
  match alookup "_id" d with
  | some (.obj idFields) => eraseKey "_id" (assignAll idFields d)
  | some _ => eraseKey "_id" d
  | none => d

/-- An observable event of one collection operation: driver calls with
their arguments, connection lifecycle steps, callback invocations, and
thrown exceptions. -/
inductive Event where
  | openConn
  | findCall (filter : Val)
  | findWithOptions (filter : Val) (options : Doc)
  | aggregateCall (matchStage : Val) (groupStage : Doc)
  | insertCall (docs : List Doc)
  | updateCall (filter : Val) (setValues : Doc) (multi : Bool)
  | removeCall (filter : Val)
  | closeCall
  | cb (err : Option String) (result : Option (List Doc))
  | thrown (msg : String)
deriving DecidableEq, Repr

/-- The ordered observable events of one operation. -/
abbrev Trace := List Event

/-- Whether an event is a call against the native driver collection. -/
def Event.isDriverCall : Event → Bool
  | .findCall _ => true
  | .findWithOptions _ _ => true
  | .aggregateCall _ _ => true
  | .insertCall _ => true
  | .updateCall _ _ _ => true
  | .removeCall _ => true
  | _ => false

namespace Collection

/-- Embeds `Collection.prototype.find` (src/lib/collection.js lines
132-182).  `qres` is the outcome of `new Query(criteria)` caught on lines
138-142; `aggResp` is the driver's node-style `(err, results)` pair for
the aggregate call of line 154, where a `none` result embeds JavaScript
`null` (the mapping on line 158 dereferences `results` even when `err` is
set); `findResp` is the driver's response for the normal query of line
175, whose error branch never touches the documents. -/
def find (qres : Except String Query)
    (aggResp : Option String × Option (List Doc))
    (findResp : Except String (List Doc)) : Trace :=
  match qres with
  | .error e => [.cb (some e) none]
  | .ok query =>
    .openConn ::
    if query.aggregate then
      .aggregateCall (whereOrEmpty query) query.aggregateGroup ::
      match aggResp with
      | (err, some results) =>
          [.closeCall, .cb err (some (results.map flattenGroupedDoc))]
      | (_, none) =>
          [.closeCall, .thrown "TypeError: results is not an object"]
    else
      .findWithOptions (whereOrEmpty query) (eraseKey "where" query.criteria) ::
      match findResp with
      | .error e => [.closeCall, .cb (some e) none]
      | .ok docs => [.closeCall, .cb none (some (rewriteIds docs))]

/-- The argument of `insert` before normalization: a single value object
or an array of them. -/
inductive InsertInput where
  | one (values : Doc)
  | many (values : List Doc)

/-- Line 197: `if(!_.isArray(values)) values = [values]`. -/
def normalizeInsertInput : InsertInput → List Doc
  | .one v => [v]
  | .many vs => vs

/-- Embeds `Collection.prototype.insert` (lines 192-212).  `insertResp` is
the driver's response to the single batch insert of line 205: on success,
the documents as inserted, each carrying a store-assigned `_id`. -/
def insert (schema : Schema) (values : InsertInput)
    (insertResp : Except String (List Doc)) : Trace :=
  let docs := (normalizeInsertInput values).map (fun v => documentValues v schema)
  .openConn :: .insertCall docs ::
  match insertResp with
  | .error e => [.closeCall, .cb (some e) none]
  | .ok results => [.closeCall, .cb none (some (rewriteIds results))]

/-- Embeds `Collection.prototype.update` (lines 222-279).  `findResp` is
the driver's node-style `(err, records)` pair for the lookup of the
records being updated (line 246), with a `none` record list embedding
JavaScript `null`: the guard `if(err || !records)` of line 247 tests
`err` truthiness and `records` falsiness, and an empty array is truthy.
`updateResp` is the driver error, if any, of the multi update of line 262
(its success value is unused by the source); `refetchResp` answers the
re-fetch by captured identifiers of line 270. -/
def update (schema : Schema) (qres : Except String Query) (values : Doc)
    (findResp : Option String × Option (List Doc))
    (updateResp : Option String)
    (refetchResp : Except String (List Doc)) : Trace :=
  match qres with
  | .error e => [.cb (some e) none]
  | .ok query =>
    let vals := stripIds (documentValues values schema)
    .openConn :: .findCall (whereRaw query) ::
    match findResp with
    | (some e, _) => [.closeCall, .cb (some e) none]
    | (none, none) =>
        [.closeCall, .cb (some "Could not find any records to update") none]
    | (none, some records) =>
        let updatedRecords := records.map (fun r => (alookup "_id" r).getD .null)
        .updateCall (whereRaw query) vals true ::
        match updateResp with
        | some e => [.closeCall, .cb (some e) none]
        | none =>
            .findCall (.obj [("_id", .obj [("$in", .arr updatedRecords)])]) ::
            match refetchResp with
            | .error e => [.closeCall, .cb (some e) none]
            | .ok docs => [.closeCall, .cb none (some (rewriteIds docs))]

/-- Embeds `Collection.prototype.destroy` (lines 288-323).  `removeResp`
is the driver's response to `remove` (line 301), whose successful value
may be a bare identifier/count or an array of identifiers (spec §4.3).
In the array branch the source calls `utils.rewriteIds(resultArray)` on
line 319 while the variable in scope is named `resultsArray`; evaluating
the undeclared identifier throws a `ReferenceError`, so control never
reaches the callback on that branch. -/
def destroy (qres : Except String Query) (removeResp : Except String Val) :
    Trace :=
  match qres with
  | .error e => [.cb (some e) none]
  | .ok query =>
    .openConn :: .removeCall (whereRaw query) :: .closeCall ::
    match removeResp with
    | .error e => [.cb (some e) none]
    | .ok results =>
        match results with
        | .arr _ => [.thrown "ReferenceError: resultArray is not defined"]
        | v => [.cb none (some [[("id", v)]])]

end Collection

/-- Modelled from the spec: the store's filter matching (the driver, which
is not under `src/`), restricted to the condition forms the collection
layer produces — top-level field equality and `$in` membership; a `null`
filter (JavaScript `undefined`, lines 246 and 301) matches every
document (§6). -/
def condMatches (cond : Val) (actual : Option Val) : Bool :=
  match cond with
  | .obj [("$in", .arr vs)] =>
      match actual with
      | some a => vs.any (fun x => decide (x = a))
      | none => false
  | c => decide (actual = some c)

/-- Modelled from the spec: a document matches an object filter when every
condition of the filter matches the document's corresponding field. -/
def matchesFilter (filter : Val) (d : Doc) : Bool :=
  match filter with
  | .obj conds => conds.all (fun p => condMatches p.2 (alookup p.1 d))
  | .null => true
  | _ => false

/-- Modelled from the spec: the store's `$set` update applied to one
document — each payload field overwrites or adds the corresponding
top-level field. -/
def applySet (vals : Doc) (d : Doc) : Doc := assignAll vals d

/-- Modelled from the spec: a `{multi: true}` update applies the `$set`
payload to every document matching the filter and leaves the rest
untouched, preserving store order. -/
def dbUpdateMulti (filter : Val) (vals : Doc) (db : List Doc) : List Doc :=
  db.map (fun d => if matchesFilter filter d then applySet vals d else d)

/-- Modelled from the spec: the driver find returns the matching documents
in store order. -/
def dbFind (filter : Val) (db : List Doc) : List Doc :=
  db.filter (fun d => matchesFilter filter d)

/-- The native identifier of a record as captured on line 258
(`record._id`; an absent field is JavaScript `undefined`, embedded as
`Val.null`). -/
def docId (d : Doc) : Val := (alookup "_id" d).getD .null

/-- A collection definition as passed by the caller (spec §3 and §6):
`identity`, connection `config` (kept opaque), and the schema map held
under the `definition` key. -/
structure CollectionDef where
  identity : String
  config : String
  definition : Schema
deriving DecidableEq, Repr

/-- A tiny object heap: JavaScript objects are references to cells; index
`i` refers to the `i`-th allocated cell.  `_.cloneDeep` allocates a fresh
cell and in-place mutation overwrites a cell. -/
abbrev Heap := List CollectionDef

/-- Modelled from the spec: `utils.parseUrl` (not under `src/`) parses the
connection configuration into structured parameters (§6); its result is
kept opaque because no claim inspects it. -/
def parseUrl (config : String) : String := config

/-- Lines 66-68: for every schema key, a truthy `autoIncrement` flag is
deleted (an absent flag is embedded as `false`). -/
def stripAutoIncrement (s : Schema) : Schema :=
  s.map (fun p =>
    (p.1, if p.2.autoIncrement then { p.2 with autoIncrement := false } else p.2))

/-- The attributes `parseDefinition` stores on the Collection instance
(lines 59-71). -/
structure CollectionAttrs where
  config : String
  schema : Schema
  identity : String
deriving DecidableEq, Repr

/-- Embeds `Collection.prototype.parseDefinition` (lines 54-72) over the
object heap: `_.cloneDeep(definition)` allocates a fresh cell holding a
deep copy (line 56); the auto-increment stripping of lines 66-68 mutates
that clone in place (`this.schema` aliases the clone's `definition`); the
caller's cell is never written.  Returns the heap after the call and the
attributes stored on the instance (`none` for a dangling reference). -/
def parseDefinition (h : Heap) (ref : Nat) : Heap × Option CollectionAttrs :=
  match h[ref]? with
  | none => (h, none)
  | some d =>
      let cloneRef := h.length
      let h1 := h ++ [d]
      let mutated := { d with definition := stripAutoIncrement d.definition }
      let h2 := h1.set cloneRef mutated
      (h2, some { config := parseUrl mutated.config,
                  schema := mutated.definition,
                  identity := mutated.identity.toLower })

/-- An index descriptor (spec §3): the index key mapping and the options
object, embedded as an association list because the `unique` key is
present only on unique indexes. -/
structure IndexEntry where
  index : List (String × Int)
  options : List (String × Bool)
deriving DecidableEq, Repr

/-- One iteration of the `buildIndexes` loop (lines 83-115): a `unique`
field yields the unique descriptor and returns early; otherwise an
`index` field yields the sparse descriptor; otherwise nothing. -/
def indexEntryFor (key : String) (fs : FieldSpec) : Option IndexEntry :=
  if fs.unique then
    some { index := [(key, 1)], options := [("sparse", true), ("unique", true)] }
  else if fs.index then
    some { index := [(key, 1)], options := [("sparse", true)] }
  else none

/-- Embeds `Collection.prototype.buildIndexes` (lines 80-116): walk the
schema keys in order, pushing at most one descriptor per key. -/
def buildIndexes (schema : Schema) : List IndexEntry :=
  schema.foldl (fun acc p =>
    match indexEntryFor p.1 p.2 with
    | some e => acc ++ [e]
    | none => acc) []

/-! Basic lemmas about the association-list object model. -/

theorem alookup_eraseKey_self {α : Type} (k : String) (d : List (String × α)) :
    alookup k (eraseKey k d) = none := by
  induction d with
  | nil => rfl
  | cons p rest ih =>
      obtain ⟨pk, pv⟩ := p
      by_cases h : pk = k
      · simpa [eraseKey, h] using ih
      · simpa [eraseKey, h, alookup] using ih

theorem alookup_eraseKey_ne {α : Type} {k k' : String} (h : k' ≠ k)
    (d : List (String × α)) : alookup k' (eraseKey k d) = alookup k' d := by
  induction d with
  | nil => rfl
  | cons p rest ih =>
      obtain ⟨pk, pv⟩ := p
      by_cases hp : pk = k
      · have hkk : ¬ k = k' := fun hh => h hh.symm
        simpa [eraseKey, hp, alookup, hkk] using ih
      · by_cases hp' : pk = k'
        · simp [eraseKey, hp, alookup, hp', h]
        · simpa [eraseKey, hp, alookup, hp'] using ih

theorem alookup_setKey_self {α : Type} (k : String) (v : α)
    (d : List (String × α)) : alookup k (setKey k v d) = some v := by
  induction d with
  | nil => simp [setKey, alookup]
  | cons p rest ih =>
      obtain ⟨pk, pv⟩ := p
      by_cases hp : pk = k
      · simp [setKey, hp, alookup]
      · simp [setKey, hp, alookup, ih]

theorem alookup_setKey_ne {α : Type} {k k' : String} (h : k' ≠ k) (v : α)
    (d : List (String × α)) : alookup k (setKey k' v d) = alookup k d := by
  have h' : ¬ k' = k := h
  induction d with
  | nil => simp [setKey, alookup, h']
  | cons p rest ih =>
      obtain ⟨pk, pv⟩ := p
      by_cases hp : pk = k'
      · have hpk : ¬ pk = k := by rw [hp]; exact h'
        simp [setKey, hp, alookup, hpk, h']
      · by_cases hpk : pk = k
        · have h'' : ¬ k = k' := fun hh => h' hh.symm
          simp [setKey, hp, alookup, hpk, h'']
        · simp [setKey, hp, alookup, hpk, ih]

theorem alookup_assignAll_of_notmem {k : String} {src : List (String × Val)}
    (h : k ∉ src.map Prod.fst) (dst : Doc) :
    alookup k (assignAll src dst) = alookup k dst := by
  induction src generalizing dst with
  | nil => rfl
  | cons p rest ih =>
      simp only [List.map_cons, List.mem_cons] at h
      push_neg at h
      have : assignAll (p :: rest) dst = assignAll rest (setKey p.1 p.2 dst) := rfl
      rw [this, ih h.2, alookup_setKey_ne (fun hh => h.1 hh.symm)]

theorem alookup_assignAll_of_mem {src : List (String × Val)}
    (hnd : (src.map Prod.fst).Nodup) {p : String × Val} (hp : p ∈ src) (dst : Doc) :
    alookup p.1 (assignAll src dst) = some p.2 := by
  induction src generalizing dst with
  | nil => cases hp
  | cons q rest ih =>
      simp only [List.map_cons, List.nodup_cons] at hnd
      have hstep : assignAll (q :: rest) dst = assignAll rest (setKey q.1 q.2 dst) := rfl
      rcases List.mem_cons.mp hp with hq | hq
      · subst hq
        rw [hstep, alookup_assignAll_of_notmem hnd.1, alookup_setKey_self]
      · rw [hstep]
        exact ih hnd.2 hq _

theorem alookup_eq_none_iff {α : Type} {k : String} {d : List (String × α)} :
    alookup k d = none ↔ k ∉ d.map Prod.fst := by
  induction d with
  | nil => simp [alookup]
  | cons p rest ih =>
      obtain ⟨pk, pv⟩ := p
      by_cases hp : pk = k
      · simp [alookup, hp]
      · have hp' : ¬ k = pk := fun hh => hp hh.symm
        simp [alookup, hp, ih, hp']

/-! Claim theorems. -/

/-- C1: the spec states that an `update` whose `where` matches zero
records reports the `Could not find any records to update` error to the
callback and issues no write.  Evaluating the embedded `update` at such a
call — the driver lookup answers with an empty record list, as it does
whenever zero documents match — shows the code instead issues the multi
update write and invokes the callback with no error and an empty result:
the guard `if(err || !records)` of line 247 never fires on an empty
array (an empty array is truthy in JavaScript), leaving the error
constructed on line 250 unreachable for the zero-match case. -/
theorem update_zero_matches_issues_write_and_succeeds :
    Collection.update []
        (.ok { criteria := [("where", .obj [("name", .str "a")])],
               aggregate := false, aggregateGroup := [] })
        [("name", .str "b")] (none, some []) none (.ok [])
      = [.openConn, .findCall (.obj [("name", .str "a")]),
         .updateCall (.obj [("name", .str "a")]) [("name", .str "b")] true,
         .findCall (.obj [("_id", .obj [("$in", .arr [])])]),
         .closeCall, .cb none (some [])] := by rfl

/-- C2: the spec states that a successful `destroy` always yields a list
of `id` records whose length equals the number of removed documents,
whether the driver reports a count or a list of identifiers.  Evaluating
the embedded `destroy`: when the driver reports a list of two removed
identifiers, line 319 references the undeclared variable `resultArray`
(the list built on lines 306-317 is named `resultsArray`), so a
`ReferenceError` is thrown and no result reaches the callback; and when
the driver reports the removal count `3`, the callback receives the
single record `[{id: 3}]`, not three records. -/
theorem destroy_result_normalization_fails :
    (Collection.destroy
        (.ok { criteria := [("where", .obj [("name", .str "a")])],
               aggregate := false, aggregateGroup := [] })
        (.ok (.arr [.str "id1", .str "id2"]))
      = [.openConn, .removeCall (.obj [("name", .str "a")]), .closeCall,
         .thrown "ReferenceError: resultArray is not defined"])
    ∧ (Collection.destroy
        (.ok { criteria := [("where", .obj [("name", .str "a")])],
               aggregate := false, aggregateGroup := [] })
        (.ok (.num 3))
      = [.openConn, .removeCall (.obj [("name", .str "a")]), .closeCall,
         .cb none (some [[("id", .num 3)]])]) := ⟨rfl, rfl⟩

/-- C7: when criteria parsing raises synchronously (the `Except.error`
outcome of `new Query(criteria)` caught on lines 138-142, 228-232 and
294-298), each of `find`, `update` and `destroy` delivers exactly the
parse error through the callback — the whole trace is that single
callback invocation, with no connection opened, no driver call made and
nothing thrown across the call boundary. -/
theorem malformed_criteria_fails_fast (e : String) (schema : Schema)
    (values : Doc) (aggResp : Option String × Option (List Doc))
    (findResp : Except String (List Doc))
    (updFindResp : Option String × Option (List Doc))
    (updateResp : Option String) (refetchResp : Except String (List Doc))
    (removeResp : Except String Val) :
    Collection.find (.error e) aggResp findResp = [.cb (some e) none]
    ∧ Collection.update schema (.error e) values updFindResp updateResp
        refetchResp = [.cb (some e) none]
    ∧ Collection.destroy (.error e) removeResp = [.cb (some e) none] :=
  ⟨rfl, rfl, rfl⟩

/-- C3: for every criteria object without the aggregate flag, `find`
issues exactly one native query, whose filter is exactly the criteria's
`where` sub-object (the empty object when `where` is absent) and whose
options object carries every other key of the criteria, unchanged, and
nothing else — in particular no `where` key (lines 171-175:
`query.criteria.where || {}` and `_.omit(query.criteria, 'where')`). -/
theorem find_nonaggregate_query (q : Query) (w : Doc)
    (aggResp : Option String × Option (List Doc))
    (findResp : Except String (List Doc))
    (hagg : q.aggregate = false)
    (hw : alookup "where" q.criteria = some (.obj w) ∨
          (alookup "where" q.criteria = none ∧ w = [])) :
    (Collection.find (.ok q) aggResp findResp).filter Event.isDriverCall
        = [.findWithOptions (.obj w) (eraseKey "where" q.criteria)]
    ∧ alookup "where" (eraseKey "where" q.criteria) = none
    ∧ (∀ k, k ≠ "where" →
        alookup k (eraseKey "where" q.criteria) = alookup k q.criteria) := by
  have hwhere : whereOrEmpty q = .obj w := by
    rcases hw with hw | ⟨hw, hweq⟩
    · simp [whereOrEmpty, hw, truthy]
    · simp [whereOrEmpty, hw, hweq]
  refine ⟨?_, alookup_eraseKey_self _ _, fun k hk => alookup_eraseKey_ne hk _⟩
  cases findResp with
  | error e =>
      simp [Collection.find, hagg, hwhere, Event.isDriverCall]
  | ok docs =>
      simp [Collection.find, hagg, hwhere, Event.isDriverCall]

/-- C3 witness: the theorem applied to the criteria
`{where: {name: 'a'}, limit: 30}`. -/
theorem find_nonaggregate_query_witness :
    (Collection.find
        (.ok { criteria := [("where", .obj [("name", .str "a")]),
                            ("limit", .num 30)],
               aggregate := false, aggregateGroup := [] })
        (none, none) (.ok [])).filter Event.isDriverCall
        = [.findWithOptions (.obj [("name", .str "a")])
            (eraseKey "where" ([("where", .obj [("name", .str "a")]),
                                ("limit", .num 30)] : Doc))]
    ∧ alookup "where"
        (eraseKey "where" ([("where", .obj [("name", .str "a")]),
                            ("limit", .num 30)] : Doc)) = none
    ∧ (∀ k, k ≠ "where" →
        alookup k (eraseKey "where" ([("where", .obj [("name", .str "a")]),
                                      ("limit", .num 30)] : Doc))
          = alookup k ([("where", .obj [("name", .str "a")]),
                        ("limit", .num 30)] : Doc)) :=
  find_nonaggregate_query
    { criteria := [("where", .obj [("name", .str "a")]), ("limit", .num 30)],
      aggregate := false, aggregateGroup := [] }
    [("name", .str "a")] (none, none) (.ok []) rfl (Or.inl (by decide))

/-- C4: for every insert call, single object or array, the successful
callback result is a list with one entry per input value, each entry
carrying the ORM identifier `id` in place of the store-native `_id`; the
inputs are persisted through the single batch `insertCall` of the trace,
which carries the schema-normalized values in input order (lines
197-208).  The hypotheses state the driver contract for `insert`: it
reports the inserted documents, one per submitted document, each with a
store-assigned `_id`. -/
theorem insert_single_batch_and_id_rewrite (schema : Schema)
    (values : Collection.InsertInput) (results : List Doc)
    (hlen : results.length = (Collection.normalizeInsertInput values).length)
    (hid : ∀ r ∈ results, (alookup "_id" r).isSome = true) :
    Collection.insert schema values (.ok results)
        = [.openConn,
           .insertCall ((Collection.normalizeInsertInput values).map
             (fun v => documentValues v schema)),
           .closeCall, .cb none (some (rewriteIds results))]
    ∧ (rewriteIds results).length = (Collection.normalizeInsertInput values).length
    ∧ ∀ r ∈ rewriteIds results,
        (alookup "id" r).isSome = true ∧ alookup "_id" r = none := by
  refine ⟨rfl, by simpa [rewriteIds] using hlen, ?_⟩
  intro r hr
  rw [rewriteIds, List.mem_map] at hr
  obtain ⟨r0, hr0, hrw⟩ := hr
  obtain ⟨v, hv⟩ := Option.isSome_iff_exists.mp (hid r0 hr0)
  subst hrw
  have hne : ("id" : String) ≠ "_id" := by decide
  constructor
  · rw [rewriteDocId, hv, alookup_eraseKey_ne hne, alookup_setKey_self]
    rfl
  · rw [rewriteDocId, hv, alookup_eraseKey_self]

/-- C4 witness: the theorem applied to a single-object insert whose
driver response is the inserted document with its assigned `_id`. -/
theorem insert_single_batch_and_id_rewrite_witness :
    Collection.insert [] (.one [("name", .str "a")])
        (.ok [[("name", .str "a"), ("_id", .str "x1")]])
        = [.openConn,
           .insertCall ((Collection.normalizeInsertInput
             (.one [("name", .str "a")])).map (fun v => documentValues v [])),
           .closeCall,
           .cb none (some (rewriteIds [[("name", .str "a"), ("_id", .str "x1")]]))]
    ∧ (rewriteIds [[("name", .str "a"), ("_id", .str "x1")]]).length
        = (Collection.normalizeInsertInput
            (Collection.InsertInput.one [("name", .str "a")])).length
    ∧ ∀ r ∈ rewriteIds [[("name", .str "a"), ("_id", .str "x1")]],
        (alookup "id" r).isSome = true ∧ alookup "_id" r = none :=
  insert_single_batch_and_id_rewrite [] (.one [("name", .str "a")])
    [[("name", .str "a"), ("_id", .str "x1")]] (by decide) (by decide)

/-- C6: for every criteria object carrying the aggregate flag, `find`
runs the two-stage pipeline — a `$match` stage from the criteria's
`where` (the empty predicate when absent, line 150) followed by a
`$group` stage from the supplied group specification (line 151) — and
maps the driver's grouped results so that every key of the synthetic
`_id` object becomes a top-level key with its grouped value while the
synthetic `_id` itself is deleted, producing one flat record per group
(lines 154-166). -/
theorem find_aggregate_flattens (q : Query) (results : List Doc)
    (findResp : Except String (List Doc))
    (hagg : q.aggregate = true) :
    Collection.find (.ok q) (none, some results) findResp
        = [.openConn, .aggregateCall (whereOrEmpty q) q.aggregateGroup,
           .closeCall, .cb none (some (results.map flattenGroupedDoc))]
    ∧ (results.map flattenGroupedDoc).length = results.length
    ∧ ∀ d ∈ results, ∀ fs, alookup "_id" d = some (.obj fs) →
        (fs.map Prod.fst).Nodup → "_id" ∉ fs.map Prod.fst →
        alookup "_id" (flattenGroupedDoc d) = none
        ∧ ∀ p ∈ fs, alookup p.1 (flattenGroupedDoc d) = some p.2 := by
  refine ⟨by simp [Collection.find, hagg], by simp, ?_⟩
  intro d _ fs hfs hnd hmem
  have hflat : flattenGroupedDoc d = eraseKey "_id" (assignAll fs d) := by
    rw [flattenGroupedDoc, hfs]
  constructor
  · rw [hflat, alookup_eraseKey_self]
  · intro p hp
    have hne : p.1 ≠ "_id" := by
      intro hc
      exact hmem (hc ▸ List.mem_map_of_mem Prod.fst hp)
    rw [hflat, alookup_eraseKey_ne hne, alookup_assignAll_of_mem hnd hp]

/-- C6 witness: the theorem applied to an aggregate criteria and a driver
result grouped under the synthetic identifier `{a: 1}` with the summary
field `total`. -/
theorem find_aggregate_flattens_witness :
    Collection.find
        (.ok { criteria := [("where", .obj [("name", .str "a")])],
               aggregate := true,
               aggregateGroup := [("_id", .obj [("a", .str "$a")])] })
        (none, some [[("_id", .obj [("a", .num 1)]), ("total", .num 7)]])
        (.ok [])
        = [.openConn,
           .aggregateCall
             (whereOrEmpty
               { criteria := [("where", .obj [("name", .str "a")])],
                 aggregate := true,
                 aggregateGroup := [("_id", .obj [("a", .str "$a")])] })
             [("_id", .obj [("a", .str "$a")])],
           .closeCall,
           .cb none (some ([[("_id", .obj [("a", .num 1)]), ("total", .num 7)]].map
             flattenGroupedDoc))]
    ∧ (([[("_id", .obj [("a", .num 1)]), ("total", .num 7)]] : List Doc).map
        flattenGroupedDoc).length
        = ([[("_id", .obj [("a", .num 1)]), ("total", .num 7)]] : List Doc).length
    ∧ ∀ d ∈ ([[("_id", .obj [("a", .num 1)]), ("total", .num 7)]] : List Doc),
        ∀ fs, alookup "_id" d = some (.obj fs) →
        (fs.map Prod.fst).Nodup → "_id" ∉ fs.map Prod.fst →
        alookup "_id" (flattenGroupedDoc d) = none
        ∧ ∀ p ∈ fs, alookup p.1 (flattenGroupedDoc d) = some p.2 :=
  find_aggregate_flattens
    { criteria := [("where", .obj [("name", .str "a")])],
      aggregate := true,
      aggregateGroup := [("_id", .obj [("a", .str "$a")])] }
    [[("_id", .obj [("a", .num 1)]), ("total", .num 7)]] (.ok []) rfl

/-- C9: for every definition object reachable on the heap, the caller's
object is left unchanged by the constructor's `parseDefinition`: the deep
clone of line 56 is allocated as a fresh cell, the auto-increment
stripping of lines 66-68 mutates only that clone, and the instance
receives the stripped schema and the lower-cased identity — the heap
after the call still maps the caller's reference to the original
definition. -/
theorem parseDefinition_preserves_caller (h : Heap) (ref : Nat)
    (d : CollectionDef) (href : h[ref]? = some d) :
    (parseDefinition h ref).1[ref]? = some d
    ∧ (parseDefinition h ref).2
        = some { config := parseUrl d.config,
                 schema := stripAutoIncrement d.definition,
                 identity := d.identity.toLower } := by
  have hlt : ref < h.length := (List.getElem?_eq_some.mp href).1
  have hne : h.length ≠ ref := fun hc => absurd (hc ▸ hlt) (lt_irrefl _)
  simp only [parseDefinition, href]
  refine ⟨?_, trivial⟩
  rw [List.getElem?_set_ne hne, List.getElem?_append, if_pos hlt, href]

/-- C9 witness: the theorem applied to a one-cell heap holding a
definition with an auto-increment field and a mixed-case identity. -/
theorem parseDefinition_preserves_caller_witness :
    (parseDefinition
        [{ identity := "Users", config := "mongodb://localhost/db",
           definition := [("seq", { autoIncrement := true })] }] 0).1[0]?
      = some { identity := "Users", config := "mongodb://localhost/db",
               definition := [("seq", { autoIncrement := true })] }
    ∧ (parseDefinition
        [{ identity := "Users", config := "mongodb://localhost/db",
           definition := [("seq", { autoIncrement := true })] }] 0).2
      = some { config := parseUrl "mongodb://localhost/db",
               schema := stripAutoIncrement [("seq", { autoIncrement := true })],
               identity := String.toLower "Users" } :=
  parseDefinition_preserves_caller
    [{ identity := "Users", config := "mongodb://localhost/db",
       definition := [("seq", { autoIncrement := true })] }] 0
    { identity := "Users", config := "mongodb://localhost/db",
      definition := [("seq", { autoIncrement := true })] } (by decide)

/-- Helper: `buildIndexes` as a `filterMap` of the per-key descriptor. -/
theorem buildIndexes_eq_filterMap (schema : Schema) :
    buildIndexes schema
      = schema.filterMap (fun p => indexEntryFor p.1 p.2) := by
  have aux : ∀ (s : Schema) (acc : List IndexEntry),
      s.foldl (fun acc p => match indexEntryFor p.1 p.2 with
        | some e => acc ++ [e]
        | none => acc) acc
        = acc ++ s.filterMap (fun p => indexEntryFor p.1 p.2) := by
    intro s
    induction s with
    | nil => intro acc; simp
    | cons p rest ih =>
        intro acc
        cases he : indexEntryFor p.1 p.2 with
        | none => simp [he, List.filterMap_cons, ih]
        | some e => simp [he, List.filterMap_cons, ih]
  simpa [buildIndexes] using aux schema []

/-- Helper: every descriptor produced for a key indexes exactly that
key, ascending. -/
theorem indexEntryFor_index {k : String} {fs : FieldSpec} {e : IndexEntry}
    (he : indexEntryFor k fs = some e) : e.index = [(k, 1)] := by
  unfold indexEntryFor at he
  split at he
  · cases he; rfl
  · split at he
    · cases he; rfl
    · cases he

/-- Helper: among the descriptors produced by a schema whose keys are
distinct, the ones indexing a given present key are exactly the single
descriptor of that key's field specification. -/
theorem buildIndexes_filter_key {schema : Schema} {k : String}
    {fs : FieldSpec} {e : IndexEntry}
    (hnd : (schema.map Prod.fst).Nodup) (hmem : (k, fs) ∈ schema)
    (he : indexEntryFor k fs = some e) :
    (buildIndexes schema).filter (fun x => decide (x.index = [(k, 1)]))
      = [e] := by
  rw [buildIndexes_eq_filterMap]
  induction schema with
  | nil => cases hmem
  | cons p rest ih =>
      simp only [List.map_cons, List.nodup_cons] at hnd
      rcases List.mem_cons.mp hmem with heq | hmem'
      · have hp : p = (k, fs) := heq.symm
        subst hp
        have hrest : (rest.filterMap
            (fun p => indexEntryFor p.1 p.2)).filter
            (fun x => decide (x.index = [(k, 1)])) = [] := by
          rw [List.filter_eq_nil_iff]
          intro x hx
          rw [List.mem_filterMap] at hx
          obtain ⟨q, hq, hqx⟩ := hx
          have hqmem : q.1 ∈ rest.map Prod.fst := List.mem_map_of_mem Prod.fst hq
          have hqk : q.1 ≠ k := by
            intro hc
            rw [hc] at hqmem
            exact hnd.1 hqmem
          have hxq : x.index = [(q.1, 1)] := indexEntryFor_index hqx
          rw [hxq]
          simp only [decide_eq_true_eq, List.cons.injEq, Prod.mk.injEq]
          intro hcc
          exact hqk hcc.1.1
        rw [List.filterMap_cons, he, List.filter_cons]
        rw [indexEntryFor_index he]
        simpa using hrest
      · have hkmem : k ∈ rest.map Prod.fst := by
          have := List.mem_map_of_mem Prod.fst hmem'
          simpa using this
        have hpk : p.1 ≠ k := by
          intro hc
          rw [hc] at hnd
          exact hnd.1 hkmem
        rw [List.filterMap_cons]
        cases hpe : indexEntryFor p.1 p.2 with
        | none => exact ih hnd.2 hmem'
        | some e' =>
            rw [List.filter_cons]
            have hfalse : (decide (e'.index = [(k, 1)])) = false := by
              rw [indexEntryFor_index hpe]
              simp only [decide_eq_false_iff_not, List.cons.injEq, Prod.mk.injEq]
              intro hcc
              exact hpk hcc.1.1
            rw [hfalse]
            simp only [Bool.false_eq_true, if_false]
            exact ih hnd.2 hmem'

/-- C10: for every schema whose keys are distinct, a field flagged both
`unique` and `index` yields exactly one descriptor — the unique one, with
options `{sparse: true, unique: true}` (the early return of lines 88-100
skips the non-unique branch) — and a field flagged only `index` yields a
single descriptor with options `{sparse: true}` carrying no `unique`
key. -/
theorem buildIndexes_one_descriptor_per_field (schema : Schema)
    (k : String) (fs : FieldSpec)
    (hnd : (schema.map Prod.fst).Nodup) (hmem : (k, fs) ∈ schema) :
    (fs.unique = true →
      (buildIndexes schema).filter (fun x => decide (x.index = [(k, 1)]))
        = [{ index := [(k, 1)],
             options := [("sparse", true), ("unique", true)] }])
    ∧ (fs.unique = false → fs.index = true →
      (buildIndexes schema).filter (fun x => decide (x.index = [(k, 1)]))
        = [{ index := [(k, 1)], options := [("sparse", true)] }]
      ∧ alookup "unique" ([("sparse", true)] : List (String × Bool)) = none) := by
  constructor
  · intro hu
    exact buildIndexes_filter_key hnd hmem (by simp [indexEntryFor, hu])
  · intro hnu hi
    exact ⟨buildIndexes_filter_key hnd hmem (by simp [indexEntryFor, hnu, hi]),
           rfl⟩

/-- C10 witness: the theorem applied to a two-field schema — `a` flagged
both unique and index, `b` flagged only index. -/
theorem buildIndexes_one_descriptor_per_field_witness :
    ((true = true →
      (buildIndexes [("a", { unique := true, index := true }),
                     ("b", { index := true })]).filter
          (fun x => decide (x.index = [("a", 1)]))
        = [{ index := [("a", 1)],
             options := [("sparse", true), ("unique", true)] }])
    ∧ (true = false → true = true →
      (buildIndexes [("a", { unique := true, index := true }),
                     ("b", { index := true })]).filter
          (fun x => decide (x.index = [("a", 1)]))
        = [{ index := [("a", 1)], options := [("sparse", true)] }]
      ∧ alookup "unique" ([("sparse", true)] : List (String × Bool)) = none))
    ∧ ((false = true →
      (buildIndexes [("a", { unique := true, index := true }),
                     ("b", { index := true })]).filter
          (fun x => decide (x.index = [("b", 1)]))
        = [{ index := [("b", 1)],
             options := [("sparse", true), ("unique", true)] }])
    ∧ (false = false → true = true →
      (buildIndexes [("a", { unique := true, index := true }),
                     ("b", { index := true })]).filter
          (fun x => decide (x.index = [("b", 1)]))
        = [{ index := [("b", 1)], options := [("sparse", true)] }]
      ∧ alookup "unique" ([("sparse", true)] : List (String × Bool)) = none)) :=
  ⟨buildIndexes_one_descriptor_per_field
      [("a", { unique := true, index := true }), ("b", { index := true })]
      "a" { unique := true, index := true } (by decide) (by decide),
   buildIndexes_one_descriptor_per_field
      [("a", { unique := true, index := true }), ("b", { index := true })]
      "b" { index := true } (by decide) (by decide)⟩

/-- C5 counterexample: a caller-supplied falsy identifier field is not
stripped from the update payload.  With `values = {name: 'b', id: 0}`,
the guard `if(values.id)` of line 237 sees the falsy `0` and does not
delete the field, so the `$set` payload of the issued update still
carries `id: 0` — refuting the claim that any caller-supplied identifier
fields are stripped from the values before the update is applied. -/
theorem update_falsy_id_survives :
    Event.updateCall (.obj [("name", .str "a")])
        [("name", .str "b"), ("id", .num 0)] true
      ∈ Collection.update []
          (.ok { criteria := [("where", .obj [("name", .str "a")])],
                 aggregate := false, aggregateGroup := [] })
          [("name", .str "b"), ("id", .num 0)]
          (none, some [[("_id", .str "x"), ("name", .str "a")]]) none
          (.ok [[("_id", .str "x"), ("name", .str "b"), ("id", .num 0)]]) := by
  decide

/-- Helper: the `$in` re-fetch filter of line 270 inspects only the
`_id` field. -/
theorem matchesFilter_in_ids (ids : List Val) (d : Doc) :
    matchesFilter (.obj [("_id", .obj [("$in", .arr ids)])]) d
      = match alookup "_id" d with
        | some a => ids.any (fun x => decide (x = a))
        | none => false := by
  cases h : alookup "_id" d with
  | some a => simp [matchesFilter, condMatches, h]
  | none => simp [matchesFilter, condMatches, h]

/-- Helper: over a store in which every document whose `where` match
status is `true` has its identifier in `ids` and every non-matching
document has its identifier outside `ids`, re-fetching by `ids` after
the multi update returns exactly the updated matches. -/
theorem dbFind_in_ids_aux (ids : List Val) (w : Val) (vals : Doc)
    (hnoid : alookup "_id" vals = none) :
    ∀ db : List Doc,
      (∀ d ∈ db, (alookup "_id" d).isSome = true) →
      (∀ d ∈ db, matchesFilter w d = true → docId d ∈ ids) →
      (∀ d ∈ db, matchesFilter w d = false → docId d ∉ ids) →
      dbFind (.obj [("_id", .obj [("$in", .arr ids)])])
          (dbUpdateMulti w vals db)
        = (dbFind w db).map (applySet vals) := by
  intro db
  induction db with
  | nil => intro _ _ _; rfl
  | cons d rest ih =>
      intro hid hin hout
      obtain ⟨a, ha⟩ :=
        Option.isSome_iff_exists.mp (hid d (List.mem_cons_self d rest))
      have hdocId : docId d = a := by simp [docId, ha]
      have hstep : dbUpdateMulti w vals (d :: rest)
          = (if matchesFilter w d then applySet vals d else d)
            :: dbUpdateMulti w vals rest := rfl
      have ihr := ih (fun x hx => hid x (List.mem_cons_of_mem d hx))
        (fun x hx => hin x (List.mem_cons_of_mem d hx))
        (fun x hx => hout x (List.mem_cons_of_mem d hx))
      cases hm : matchesFilter w d with
      | true =>
          have hmem : a ∈ ids := hdocId ▸ hin d (List.mem_cons_self d rest) hm
          have hpres : alookup "_id" (applySet vals d) = some a := by
            rw [applySet,
              alookup_assignAll_of_notmem (alookup_eq_none_iff.mp hnoid), ha]
          have hmatch :
              matchesFilter (.obj [("_id", .obj [("$in", .arr ids)])])
                (applySet vals d) = true := by
            rw [matchesFilter_in_ids, hpres]
            simp only [List.any_eq_true, decide_eq_true_eq]
            exact ⟨a, hmem, rfl⟩
          rw [hstep, hm, if_pos rfl, dbFind, List.filter_cons, hmatch]
          have hrhs : dbFind w (d :: rest) = d :: dbFind w rest := by
            rw [dbFind, List.filter_cons, hm]
            rfl
          rw [hrhs, List.map_cons]
          simp only [if_true]
          exact congrArg _ ihr
      | false =>
          have hnotin : docId d ∉ ids := hout d (List.mem_cons_self d rest) hm
          have hany : (ids.any (fun x => decide (x = a))) = false := by
            rw [Bool.eq_false_iff]
            intro hc
            rw [List.any_eq_true] at hc
            obtain ⟨x, hx, hxa⟩ := hc
            rw [decide_eq_true_eq] at hxa
            exact hnotin (hdocId ▸ hxa ▸ hx)
          have hmatch :
              matchesFilter (.obj [("_id", .obj [("$in", .arr ids)])]) d
                = false := by
            rw [matchesFilter_in_ids, ha]
            exact hany
          rw [hstep, hm, if_neg Bool.false_ne_true, dbFind, List.filter_cons,
            hmatch]
          have hrhs : dbFind w (d :: rest) = dbFind w rest := by
            rw [dbFind, List.filter_cons, hm]
            rfl
          rw [hrhs]
          simp only [Bool.false_eq_true, if_false]
          exact ihr

/-- Helper: re-fetching by the identifiers captured from the matched
records (line 258) returns exactly those records' post-update state,
given the store invariants — every document carries an identifier,
identifiers are pairwise distinct — and a payload not touching `_id`. -/
theorem dbFind_refetch (w : Val) (vals : Doc) (db : List Doc)
    (hnd : (db.map docId).Nodup)
    (hid : ∀ d ∈ db, (alookup "_id" d).isSome = true)
    (hnoid : alookup "_id" vals = none) :
    dbFind (.obj [("_id", .obj [("$in", .arr ((dbFind w db).map docId))])])
        (dbUpdateMulti w vals db)
      = (dbFind w db).map (applySet vals) := by
  apply dbFind_in_ids_aux _ _ _ hnoid db hid
  · intro d hd hm
    apply List.mem_map_of_mem docId
    rw [dbFind, List.mem_filter]
    exact ⟨hd, hm⟩
  · intro d hd hm hmem
    rw [List.mem_map] at hmem
    obtain ⟨d2, hd2, hd2id⟩ := hmem
    rw [dbFind, List.mem_filter] at hd2
    have : d2 = d := List.inj_on_of_nodup_map hnd hd2.1 hd hd2id
    rw [this] at hd2
    rw [hd2.2] at hm
    cases hm

/-- C5 amended: for every update call where N records match the `where`
predicate — driver responses instantiated from the in-memory store
model — the successful callback result is exactly the post-update state
of those N matched records, re-fetched by the native identifiers
captured before the write, and the single update issued carries
`multi: true` so it covers all N matches.  The payload of that write is
`stripIds` of the schema-normalized values: caller-supplied identifier
fields are stripped only when truthy (guard of lines 237-238).  The
hypotheses state the store invariants — every stored document carries a
native identifier, identifiers are pairwise distinct — and that the
stripped payload carries no `_id` field. -/
theorem update_matched_records_post_state (schema : Schema) (q : Query)
    (values : Doc) (db : List Doc)
    (hnd : (db.map docId).Nodup)
    (hid : ∀ d ∈ db, (alookup "_id" d).isSome = true)
    (hnoid : alookup "_id" (stripIds (documentValues values schema)) = none) :
    Collection.update schema (.ok q) values
        (none, some (dbFind (whereRaw q) db)) none
        (.ok (dbFind
          (.obj [("_id", .obj [("$in",
            .arr ((dbFind (whereRaw q) db).map docId))])])
          (dbUpdateMulti (whereRaw q)
            (stripIds (documentValues values schema)) db)))
      = [.openConn, .findCall (whereRaw q),
         .updateCall (whereRaw q)
           (stripIds (documentValues values schema)) true,
         .findCall (.obj [("_id", .obj [("$in",
           .arr ((dbFind (whereRaw q) db).map docId))])]),
         .closeCall,
         .cb none (some (rewriteIds ((dbFind (whereRaw q) db).map
           (applySet (stripIds (documentValues values schema))))))] := by
  rw [dbFind_refetch (whereRaw q) (stripIds (documentValues values schema))
    db hnd hid hnoid]
  rfl

/-- C5 amended witness: the theorem applied to a two-document store in
which one document matches `{name: 'a'}`. -/
theorem update_matched_records_post_state_witness :
    Collection.update []
        (.ok { criteria := [("where", .obj [("name", .str "a")])],
               aggregate := false, aggregateGroup := [] })
        [("name", .str "b")]
        (none, some (dbFind
          (whereRaw { criteria := [("where", .obj [("name", .str "a")])],
                      aggregate := false, aggregateGroup := [] })
          [[("_id", .num 1), ("name", .str "a")],
           [("_id", .num 2), ("name", .str "c")]])) none
        (.ok (dbFind
          (.obj [("_id", .obj [("$in",
            .arr ((dbFind
              (whereRaw { criteria := [("where", .obj [("name", .str "a")])],
                          aggregate := false, aggregateGroup := [] })
              [[("_id", .num 1), ("name", .str "a")],
               [("_id", .num 2), ("name", .str "c")]]).map docId))])])
          (dbUpdateMulti
            (whereRaw { criteria := [("where", .obj [("name", .str "a")])],
                        aggregate := false, aggregateGroup := [] })
            (stripIds (documentValues [("name", .str "b")] []))
            [[("_id", .num 1), ("name", .str "a")],
             [("_id", .num 2), ("name", .str "c")]])))
      = [.openConn,
         .findCall (whereRaw
           { criteria := [("where", .obj [("name", .str "a")])],
             aggregate := false, aggregateGroup := [] }),
         .updateCall (whereRaw
           { criteria := [("where", .obj [("name", .str "a")])],
             aggregate := false, aggregateGroup := [] })
           (stripIds (documentValues [("name", .str "b")] [])) true,
         .findCall (.obj [("_id", .obj [("$in",
           .arr ((dbFind
             (whereRaw { criteria := [("where", .obj [("name", .str "a")])],
                         aggregate := false, aggregateGroup := [] })
             [[("_id", .num 1), ("name", .str "a")],
              [("_id", .num 2), ("name", .str "c")]]).map docId))])]),
         .closeCall,
         .cb none (some (rewriteIds ((dbFind
           (whereRaw { criteria := [("where", .obj [("name", .str "a")])],
                       aggregate := false, aggregateGroup := [] })
           [[("_id", .num 1), ("name", .str "a")],
            [("_id", .num 2), ("name", .str "c")]]).map
           (applySet (stripIds (documentValues [("name", .str "b")] []))))))] :=
  update_matched_records_post_state []
    { criteria := [("where", .obj [("name", .str "a")])],
      aggregate := false, aggregateGroup := [] }
    [("name", .str "b")]
    [[("_id", .num 1), ("name", .str "a")],
     [("_id", .num 2), ("name", .str "c")]]
    (by decide) (by decide) (by decide)

/-- C8: the spec states that on every exit path the database handle is
closed before the callback fires and the callback fires exactly once.
Evaluating the embedded `destroy` on the success path in which the driver
reports a list of removed identifiers (a path the spec itself lists in
§4.3): the close does fire, but the `ReferenceError` of line 319 is then
thrown inside the close callback, so the operation's callback fires zero
times, not once. -/
theorem destroy_list_close_but_no_callback :
    (Collection.destroy
        (.ok { criteria := [("where", .obj [])],
               aggregate := false, aggregateGroup := [] })
        (.ok (.arr [.str "x", .str "y", .str "z"]))).filter
        (fun ev => match ev with | .cb _ _ => true | _ => false) = []
    ∧ Event.closeCall ∈ Collection.destroy
        (.ok { criteria := [("where", .obj [])],
               aggregate := false, aggregateGroup := [] })
        (.ok (.arr [.str "x", .str "y", .str "z"]))
    ∧ Event.thrown "ReferenceError: resultArray is not defined"
        ∈ Collection.destroy
            (.ok { criteria := [("where", .obj [])],
                   aggregate := false, aggregateGroup := [] })
            (.ok (.arr [.str "x", .str "y", .str "z"])) := by
  refine ⟨rfl, ?_, ?_⟩ <;> simp [Collection.destroy, whereRaw, alookup]
